import Mathlib

/-!
# Verification of the job-roadmap agent's parsing and fallback logic

Shallow embedding of `agent.py`: the DuckDuckGo search helpers, the JSON
recovery parser `extract_json_from_text`, the default-roadmap constructor,
the roadmap generator with its caller-side field overrides, and the JSON
persistence format (`json.dump` with `indent=2, ensure_ascii=False`).

Python strings are modelled as `String` / `List Char`; Python's `json`
module is modelled by an executable parser and serializer over the `JValue`
type below.  Modelled fragment of `json`: objects, arrays, strings
(including the standard escapes and `\uXXXX` for non-surrogate code
points), integers, `true`/`false`/`null`.  Python's float literals
(fraction/exponent forms, `NaN`, `Infinity`) and lone-surrogate escapes
are outside the modelled fragment; no claim below depends on them.
External effects (network, clock, stdin) are passed as explicit
parameters: the LLM response is an arbitrary `Option String` (`none` =
the call raised), each search call's outcome is an arbitrary
`Except String DDGResponse` (`.error` = the request raised), and
`datetime.now().isoformat()` values are arbitrary strings.
-/

/-! ## Python string primitives -/

/-- Python whitespace for `str.strip()` (ASCII fragment). -/
def isPyWs (c : Char) : Bool :=
  c = ' ' || c = '\t' || c = '\n' || c = '\r' || c = '\x0b' || c = '\x0c'

/-- Python `str.strip()` on char lists. -/
def pyStrip (s : List Char) : List Char :=
  ((s.dropWhile isPyWs).reverse.dropWhile isPyWs).reverse

/-- Python `str.strip()`. -/
def pyStripStr (s : String) : String := String.mk (pyStrip s.data)

/-- Python `sub in s` substring test. -/
def pyContains (sep : List Char) : List Char → Bool
  | [] => sep.isEmpty
  | c :: rest => sep.isPrefixOf (c :: rest) || pyContains sep rest

/-- Python `sub in s` on strings. -/
def pyContainsStr (sep s : String) : Bool := pyContains sep.data s.data

/-- Worker for `pySplit`: scans left to right, cutting at each leftmost
occurrence of `sep` (non-overlapping), accumulating the current chunk
reversed in `acc`.  Fuelled so the recursion is structural (each step
consumes at least one character when `sep` is nonempty, so the fuel
passed by `pySplit` never runs out; the fuel-exhaustion arm is
unreachable). -/
def pySplitGo (sep : List Char) : Nat → List Char → List Char →
    List (List Char)
  | _, [], acc => [acc.reverse]
  | fuel + 1, c :: rest, acc =>
    if sep.isPrefixOf (c :: rest) ∧ sep ≠ [] then
      acc.reverse :: pySplitGo sep fuel ((c :: rest).drop sep.length) []
    else
      pySplitGo sep fuel rest (c :: acc)
  | 0, s, acc => [acc.reverse ++ s]

/-- Python `s.split(sep)` for a nonempty separator. -/
def pySplit (sep s : List Char) : List (List Char) :=
  pySplitGo sep (s.length + 1) s []

/-- Total list indexing with a default, modelling a guarded `xs[i]`. -/
def listGetD (xs : List (List Char)) (i : Nat) : List Char := xs.getD i []

/-- First index of `c` in `s` (`None` if absent). -/
def pyFindAux (c : Char) : List Char → Option Nat
  | [] => none
  | x :: rest => if x = c then some 0 else (pyFindAux c rest).map (· + 1)

/-- Python `s.find(c)`: first index or `-1`. -/
def pyFind (c : Char) (s : List Char) : Int :=
  match pyFindAux c s with
  | some i => (i : Int)
  | none => -1

/-- Python `s.rfind(c)`: last index or `-1`. -/
def pyRfind (c : Char) (s : List Char) : Int :=
  match pyFindAux c s.reverse with
  | some i => ((s.length - 1 - i : Nat) : Int)
  | none => -1

/-- Python `s[a:b]` for nonnegative bounds. -/
def pySlice (s : List Char) (a b : Int) : List Char :=
  (s.drop a.toNat).take (b.toNat - a.toNat)

/-- Python `s[:n]`. -/
def pyTakeStr (n : Nat) (s : String) : String := String.mk (s.data.take n)

/-- Python `s.replace(old, new)` for nonempty `old`. -/
def pyReplace (s old new : String) : String :=
  String.intercalate new ((pySplit old.data s.data).map String.mk)

/-- Python `s.lower()` (ASCII fragment). -/
def pyLower (s : String) : String := String.mk (s.data.map Char.toLower)

/-! ## JSON values

Mutual inductive mirror of Python's decoded JSON data (`dict` / `list` /
`str` / `int` / `bool` / `None`).  A bespoke mutual inductive (instead of
nesting `List`) keeps every recursion below structural, hence
kernel-evaluable. -/

mutual
inductive JValue : Type where
  | null : JValue
  | bool : Bool → JValue
  | num : Int → JValue
  | str : String → JValue
  | arr : JItems → JValue
  | obj : JFields → JValue
deriving DecidableEq, Repr

inductive JItems : Type where
  | nil : JItems
  | cons : JValue → JItems → JItems
deriving DecidableEq, Repr

inductive JFields : Type where
  | nil : JFields
  | cons : String → JValue → JFields → JFields
deriving DecidableEq, Repr
end

/-- Number of elements of a JSON array. -/
def JItems.length : JItems → Nat
  | .nil => 0
  | .cons _ tl => 1 + tl.length

/-- Append a single element at the end (Python `list.append`). -/
def JItems.push : JItems → JValue → JItems
  | .nil, v => .cons v .nil
  | .cons w tl, v => .cons w (tl.push v)

/-- Python `d[k]` lookup (first matching key; keys of a real dict are
unique). -/
def dictGet : JFields → String → Option JValue
  | .nil, _ => none
  | .cons k' v tl, k => if k' = k then some v else dictGet tl k

/-- Python `d[k] = v`: update in place if the key exists (keeping its
position), else append at the end. -/
def dictSet : JFields → String → JValue → JFields
  | .nil, k, v => .cons k v .nil
  | .cons k' v' tl, k, v =>
    if k' = k then .cons k' v tl else .cons k' v' (dictSet tl k v)

/-- The key sequence of a dict (insertion order). -/
def dictKeys : JFields → List String
  | .nil => []
  | .cons k _ tl => k :: dictKeys tl

/-- `true` iff the key occurs. -/
def hasKey : JFields → String → Bool
  | .nil, _ => false
  | .cons k' _ tl, k => k' = k || hasKey tl k

mutual
/-- Well-formedness: every object along the value has pairwise-distinct
keys (true of every Python dict). -/
def wfJ : JValue → Bool
  | .null => true
  | .bool _ => true
  | .num _ => true
  | .str _ => true
  | .arr l => wfItems l
  | .obj fs => wfFields fs

def wfItems : JItems → Bool
  | .nil => true
  | .cons v tl => wfJ v && wfItems tl

def wfFields : JFields → Bool
  | .nil => true
  | .cons k v tl => !hasKey tl k && wfJ v && wfFields tl
end

mutual
/-- Structural size, used to bound the parser fuel in round-trip proofs. -/
def sizeJ : JValue → Nat
  | .null => 1
  | .bool _ => 1
  | .num _ => 1
  | .str _ => 1
  | .arr l => 1 + sizeItems l
  | .obj fs => 1 + sizeFields fs

def sizeItems : JItems → Nat
  | .nil => 0
  | .cons v tl => 1 + sizeJ v + sizeItems tl

def sizeFields : JFields → Nat
  | .nil => 0
  | .cons _ v tl => 1 + sizeJ v + sizeFields tl
end

/-! ## `json.loads`: executable model of Python's JSON decoder

Recursive-descent parser over `List Char`, fuelled so that every
recursion is structural (hence kernel-evaluable).  The fuel passed by
`json_loads_chars` is generous; the round-trip proofs show it suffices
for any serialized value. -/

/-- JSON inter-token whitespace (RFC 8259 / Python `json`). -/
def isJsonWs (c : Char) : Bool :=
  c = ' ' || c = '\t' || c = '\n' || c = '\r'

/-- Skip inter-token whitespace. -/
def skipWs (s : List Char) : List Char := s.dropWhile isJsonWs

/-- Value of a hex digit. -/
def hexVal (c : Char) : Option Nat :=
  if '0' ≤ c ∧ c ≤ '9' then some (c.toNat - 48)
  else if 'a' ≤ c ∧ c ≤ 'f' then some (c.toNat - 87)
  else if 'A' ≤ c ∧ c ≤ 'F' then some (c.toNat - 70)
  else none

/-- Short string escapes accepted after a backslash. -/
def unescape (c : Char) : Option Char :=
  if c = '\x22' then some '\x22'
  else if c = '\\' then some '\\'
  else if c = '/' then some '/'
  else if c = 'b' then some '\x08'
  else if c = 'f' then some '\x0c'
  else if c = 'n' then some '\n'
  else if c = 'r' then some '\r'
  else if c = 't' then some '\t'
  else none

/-- Body of a JSON string literal, after the opening quote.  `acc` holds
the decoded characters reversed.  Python's strict decoder rejects raw
control characters; `\uXXXX` is accepted for non-surrogate code points
(surrogate pairs are outside the modelled fragment). -/
def parseStringBody (acc : List Char) : List Char → Option (String × List Char)
  | [] => none
  | c :: rest =>
    if c = '\x22' then some (String.mk acc.reverse, rest)
    else if c = '\\' then
      match rest with
      | [] => none
      | e :: rest2 =>
        if e = 'u' then
          match rest2 with
          | h1 :: h2 :: h3 :: h4 :: rest3 =>
            match hexVal h1, hexVal h2, hexVal h3, hexVal h4 with
            | some a, some b, some c3, some d =>
              let n := ((a * 16 + b) * 16 + c3) * 16 + d
              if n < 0xd800 ∨ 0xdfff < n then
                parseStringBody (Char.ofNat n :: acc) rest3
              else none
            | _, _, _, _ => none
          | _ => none
        else
          match unescape e with
          | some d => parseStringBody (d :: acc) rest2
          | none => none
    else if 0x20 ≤ c.toNat then parseStringBody (c :: acc) rest
    else none

/-- Decimal value of a digit list. -/
def digitsToNat (ds : List Char) : Nat :=
  ds.foldl (fun a c => a * 10 + (c.toNat - 48)) 0

/-- Unsigned integer literal: `0`, or a nonzero digit followed by digits
(maximal munch).  A leading `0` is never followed by more digits, as in
the JSON grammar. -/
def parseUNumber : List Char → Option (Nat × List Char)
  | [] => none
  | c :: rest =>
    if c = '0' then some (0, rest)
    else if c.isDigit then
      some (digitsToNat ((c :: rest).takeWhile Char.isDigit),
            (c :: rest).dropWhile Char.isDigit)
    else none

/-- Integer literal with optional minus sign.  Fraction/exponent parts
(Python floats) are outside the modelled fragment. -/
def parseNumber : List Char → Option (Int × List Char)
  | [] => none
  | c :: rest =>
    if c = '-' then (parseUNumber rest).map (fun p => (-(p.1 : Int), p.2))
    else (parseUNumber (c :: rest)).map (fun p => ((p.1 : Int), p.2))

mutual
/-- One JSON value, starting exactly at a non-whitespace position. -/
def parseValue : Nat → List Char → Option (JValue × List Char)
  | 0, _ => none
  | fuel + 1, s =>
    match s with
    | [] => none
    | c :: rest =>
      if c = '\x7b' then
        match skipWs rest with
        | [] => parseObjLoop fuel [] .nil
        | c1 :: r =>
          if c1 = '\x7d' then some (.obj .nil, r)
          else parseObjLoop fuel (c1 :: r) .nil
      else if c = '[' then
        match skipWs rest with
        | [] => parseArrLoop fuel [] .nil
        | c1 :: r =>
          if c1 = ']' then some (.arr .nil, r)
          else parseArrLoop fuel (c1 :: r) .nil
      else if c = '\x22' then
        (parseStringBody [] rest).map (fun p => (.str p.1, p.2))
      else if c = 't' then
        match rest with
        | 'r' :: 'u' :: 'e' :: r => some (.bool true, r)
        | _ => none
      else if c = 'f' then
        match rest with
        | 'a' :: 'l' :: 's' :: 'e' :: r => some (.bool false, r)
        | _ => none
      else if c = 'n' then
        match rest with
        | 'u' :: 'l' :: 'l' :: r => some (.null, r)
        | _ => none
      else
        (parseNumber (c :: rest)).map (fun p => (JValue.num p.1, p.2))
termination_by structural fuel _ => fuel

/-- Members of a nonempty array, accumulating into `acc`. -/
def parseArrLoop : Nat → List Char → JItems → Option (JValue × List Char)
  | 0, _, _ => none
  | fuel + 1, s, acc =>
    match parseValue fuel (skipWs s) with
    | some (v, r1) =>
      (match skipWs r1 with
       | [] => none
       | c :: r2 =>
         if c = ',' then parseArrLoop fuel r2 (acc.push v)
         else if c = ']' then some (.arr (acc.push v), r2)
         else none)
    | none => none
termination_by structural fuel _ _ => fuel

/-- Members of a nonempty object, accumulating into `acc` with the
last-duplicate-wins update of Python's `dict`. -/
def parseObjLoop : Nat → List Char → JFields → Option (JValue × List Char)
  | 0, _, _ => none
  | fuel + 1, s, acc =>
    match skipWs s with
    | [] => none
    | c0 :: rest =>
      if c0 = '\x22' then
        match parseStringBody [] rest with
        | some (k, r1) =>
          (match skipWs r1 with
           | [] => none
           | c1 :: r2 =>
             if c1 = ':' then
               match parseValue fuel (skipWs r2) with
               | some (v, r3) =>
                 (match skipWs r3 with
                  | [] => none
                  | c2 :: r4 =>
                    if c2 = ',' then parseObjLoop fuel r4 (dictSet acc k v)
                    else if c2 = '\x7d' then
                      some (.obj (dictSet acc k v), r4)
                    else none)
               | none => none
             else none)
        | none => none
      else none
termination_by structural fuel _ _ => fuel
end

/-- Python `json.loads` on a char list: parse one value surrounded by
optional whitespace; anything else raises `JSONDecodeError`, modelled as
`none`. -/
def json_loads_chars (cs : List Char) : Option JValue :=
  match parseValue (2 * cs.length + 2) (skipWs cs) with
  | some (v, rest) => if skipWs rest = [] then some v else none
  | none => none

/-- Python `json.loads` on a string. -/
def json_loads (s : String) : Option JValue := json_loads_chars s.data

/-! ## `json.dump(..., indent=2, ensure_ascii=False)`: the serializer -/

/-- Lowercase hex digit. -/
def hexDigit (n : Nat) : Char :=
  if n < 10 then Char.ofNat (48 + n) else Char.ofNat (87 + n)

/-- Escaping of one character inside a string literal, per Python's
`json.encoder.py_encode_basestring` (with `ensure_ascii=False`): only
the backslash, the double quote and control characters are escaped. -/
def serEscChar (c : Char) : List Char :=
  if c = '\\' then ['\\', '\\']
  else if c = '\x22' then ['\\', '\x22']
  else if c = '\n' then ['\\', 'n']
  else if c = '\r' then ['\\', 'r']
  else if c = '\t' then ['\\', 't']
  else if c = '\x08' then ['\\', 'b']
  else if c = '\x0c' then ['\\', 'f']
  else if c.toNat < 0x20 then
    ['\\', 'u', '0', '0', hexDigit (c.toNat / 16), hexDigit (c.toNat % 16)]
  else [c]

/-- Serialized string literal. -/
def serStr (s : String) : List Char :=
  '\x22' :: (s.data.flatMap serEscChar ++ ['\x22'])

/-- Worker for `natDigits`, fuelled so the recursion is structural and
kernel-evaluable; `n < fuel` suffices since `n / 10 < n` for `n ≥ 10`. -/
def natDigitsGo : Nat → Nat → List Char
  | 0, _ => []
  | fuel + 1, n =>
    if n < 10 then [Char.ofNat (48 + n)]
    else natDigitsGo fuel (n / 10) ++ [Char.ofNat (48 + n % 10)]

/-- Decimal digits of a natural number. -/
def natDigits (n : Nat) : List Char := natDigitsGo (n + 1) n

/-- Serialized integer literal. -/
def serInt (n : Int) : List Char :=
  if n < 0 then '-' :: natDigits n.natAbs else natDigits n.toNat

/-- Newline followed by the 2-space indentation of level `lvl`, as
produced by `json.dump(..., indent=2)`. -/
def nlIndent (lvl : Nat) : List Char := '\n' :: List.replicate (2 * lvl) ' '

mutual
/-- Serialization of a value whose containing indentation level is
`lvl`, exactly as written by `json.dump(roadmap, f, indent=2,
ensure_ascii=False)`. -/
def serJ : Nat → JValue → List Char
  | _, .null => ['n', 'u', 'l', 'l']
  | _, .bool true => ['t', 'r', 'u', 'e']
  | _, .bool false => ['f', 'a', 'l', 's', 'e']
  | _, .num n => serInt n
  | _, .str s => serStr s
  | _, .arr .nil => ['[', ']']
  | lvl, .arr (.cons v tl) =>
    '[' :: (nlIndent (lvl + 1) ++ serJ (lvl + 1) v ++
      serArrTail (lvl + 1) tl ++ nlIndent lvl ++ [']'])
  | _, .obj .nil => ['\x7b', '\x7d']
  | lvl, .obj (.cons k v tl) =>
    '\x7b' :: (nlIndent (lvl + 1) ++
      (serStr k ++ ':' :: ' ' :: serJ (lvl + 1) v) ++
      serObjTail (lvl + 1) tl ++ nlIndent lvl ++ ['\x7d'])
termination_by structural _ v => v

/-- Remaining array members, each preceded by `,` + newline + indent. -/
def serArrTail : Nat → JItems → List Char
  | _, .nil => []
  | lvl, .cons v tl => ',' :: (nlIndent lvl ++ serJ lvl v ++ serArrTail lvl tl)
termination_by structural _ l => l

/-- Remaining object members, each a `"key": value` entry preceded by
`,` + newline + indent. -/
def serObjTail : Nat → JFields → List Char
  | _, .nil => []
  | lvl, .cons k v tl =>
    ',' :: (nlIndent lvl ++ (serStr k ++ ':' :: ' ' :: serJ lvl v) ++
      serObjTail lvl tl)
termination_by structural _ fs => fs
end

/-- One `"key": value` member. -/
def serEntry (lvl : Nat) (k : String) (v : JValue) : List Char :=
  serStr k ++ ':' :: ' ' :: serJ lvl v

/-- The exact file contents written by `save_roadmap`: Python
`json.dumps(roadmap, indent=2, ensure_ascii=False)`. -/
def json_dumps (v : JValue) : String := String.mk (serJ 0 v)

/-! ## Embedding of `agent.py` -/

/-- Shape of a decoded DuckDuckGo answer: the optional `Abstract` string
(`""` models both an absent and an empty abstract — both falsy in
Python) and the `RelatedTopics` list, each topic carrying `some text`
exactly when it has a `Text` key. -/
structure DDGResponse where
  abstract : String
  relatedTopics : List (Option String)
deriving DecidableEq, Repr

/-- `RoadmapGenerator.search_duckduckgo`.  `outcome` is the result of the
`requests.get(...)` + `response.json()` pair: `.error` when either call
raised (the `except Exception` branch). -/
def search_duckduckgo (query : String) (outcome : Except String DDGResponse) :
    String :=
  match outcome with
  | .ok data =>
    let results :=
      (if data.abstract ≠ "" then [data.abstract] else []) ++
        (data.relatedTopics.take 3).filterMap id
    if results = [] then
      "Search for \x27" ++ query ++
        "\x27 didn\x27t return specific results. Using standard interview process."
    else
      pyTakeStr 1500 (String.intercalate " " results)
  | .error _ =>
    "Search unavailable. Using standard interview process for the role."

/-- The four query variants built by `search_company_info`. -/
def queriesFor (company role : String) : List String :=
  [company ++ " " ++ role ++ " interview process",
   company ++ " technical interview questions " ++ role,
   company ++ " hiring process " ++ role,
   "how to prepare for " ++ company ++ " " ++ role ++ " interview"]

/-- The static fallback paragraph returned when no usable snippet was
collected (spacing exactly as in the Python triple-quoted f-string). -/
def standard_process_fallback (company role : String) : String :=
  "\n        Standard interview process for " ++ role ++
  " positions at " ++ company ++ ". \n        Typically includes:\n" ++
  "        - Technical screening round with coding questions\n" ++
  "        - System design discussion for mid-level and above roles\n" ++
  "        - Behavioral and cultural fit interviews\n" ++
  "        - Possible take-home assignment or live coding session\n" ++
  "        \n        Focus on data structures, algorithms, and company-specific technologies.\n        "

/-- `RoadmapGenerator.search_company_info`: iterates over `queries[:2]`
(one search outcome parameter per issued query), keeps each result that
is truthy and does not contain the no-results marker, joins the kept
snippets with spaces truncated to 2000 characters, and otherwise falls
back to the static paragraph.  The `try/except` around each call is
dead code because `search_duckduckgo` never raises. -/
def search_company_info (company role : String)
    (o1 o2 : Except String DDGResponse) : String :=
  let queries := queriesFor company role
  let all_results := ((queries.take 2).zip [o1, o2]).foldl
    (fun acc qo =>
      let result := search_duckduckgo qo.1 qo.2
      if result ≠ "" ∧
          pyContainsStr "didn\x27t return specific results" result = false then
        acc ++ [result]
      else acc) []
  if all_results ≠ [] then
    pyTakeStr 2000 (String.intercalate " " all_results)
  else
    standard_process_fallback company role

/-- The field list of `RoadmapGenerator.create_default_roadmap`;
`now` is the value of `datetime.now().isoformat()`. -/
def create_default_fields (now company role : String) : JFields :=
  .cons "company" (.str company) <|
  .cons "role" (.str role) <|
  .cons "rounds" (.arr
    (.cons (.obj (.cons "type" (.str "Technical Screening")
      (.cons "topics" (.arr (.cons (.str "Data Structures")
        (.cons (.str "Algorithms") (.cons (.str "Problem Solving") .nil)))) .nil))) <|
     .cons (.obj (.cons "type" (.str "Coding Round")
      (.cons "topics" (.arr (.cons (.str "System Design")
        (.cons (.str "Object-Oriented Programming") .nil))) .nil))) <|
     .cons (.obj (.cons "type" (.str "System Design")
      (.cons "topics" (.arr (.cons (.str "Microservices")
        (.cons (.str "Scalability") (.cons (.str "Database Design") .nil)))) .nil))) <|
     .cons (.obj (.cons "type" (.str "Behavioral")
      (.cons "topics" (.arr (.cons (.str "Teamwork")
        (.cons (.str "Communication") (.cons (.str "Experience") .nil)))) .nil))) .nil)) <|
  .cons "difficulty" (.str "Medium") <|
  .cons "recommended_order" (.arr
    (.cons (.str "Data Structures") (.cons (.str "Algorithms")
      (.cons (.str "System Design") (.cons (.str "Behavioral") .nil))))) <|
  .cons "evidence" (.obj
    (.cons "key_skills" (.arr (.cons (.str "General Programming")
      (.cons (.str "Problem Solving") .nil)))
      (.cons "topic_count" (.num 4) .nil))) <|
  .cons "generated_at" (.str now) <|
  .cons "version" (.str "1.0") <|
  .cons "note" (.str "Default roadmap - AI generation failed") .nil

/-- `RoadmapGenerator.create_default_roadmap`. -/
def create_default_roadmap (now company role : String) : JValue :=
  .obj (create_default_fields now company role)

/-- The two code-fence delimiters used by `extract_json_from_text`. -/
def jsonFence : List Char := "```json".data

/-- The generic triple-backtick delimiter. -/
def ticks : List Char := "```".data

/-- The fence-stripping step of `extract_json_from_text`:
`cleaned.split("```json")[1].split("```")[0].strip()` when a JSON fence
is present, else the generic-fence variant, else the text unchanged.
The guarded `[1]` indexing is modelled by `listGetD`; `pySplitGo_two_le`
below shows the guard keeps it in bounds. -/
def fenceStrip (cleaned : List Char) : List Char :=
  if pyContains jsonFence cleaned then
    pyStrip (listGetD (pySplit ticks (listGetD (pySplit jsonFence cleaned) 1)) 0)
  else if pyContains ticks cleaned then
    pyStrip (listGetD (pySplit ticks (listGetD (pySplit ticks cleaned) 1)) 0)
  else cleaned

/-- `RoadmapGenerator.extract_json_from_text`.  `now` is the timestamp
used if the fallback constructor runs.  Mirrors the source exactly:
strip, fence-strip, locate the first `{` and last `}`, decode that slice
if both were found, else decode the whole working text; on a decoding
failure (`json.JSONDecodeError`) return the `("Unknown", "Unknown")`
default roadmap.  Note the `except` clause catches only decode errors:
a *successfully decoded* value is returned whatever its shape. -/
def extract_json_from_text (now : String) (text : String) : JValue :=
  let cleaned := pyStrip text.data
  let cleaned := fenceStrip cleaned
  let start := pyFind '\x7b' cleaned
  let e := pyRfind '\x7d' cleaned + 1
  if start ≠ -1 ∧ e ≠ 0 then
    match json_loads_chars (pySlice cleaned start e) with
    | some v => v
    | none => create_default_roadmap now "Unknown" "Unknown"
  else
    match json_loads_chars cleaned with
    | some v => v
    | none => create_default_roadmap now "Unknown" "Unknown"

/-- The string `extract_json_from_text` hands to `json.loads`: the
brace-delimited slice of the working text when both braces are found,
else the whole working text. -/
def extractTarget (text : String) : List Char :=
  let cleaned := fenceStrip (pyStrip text.data)
  let start := pyFind '\x7b' cleaned
  let e := pyRfind '\x7d' cleaned + 1
  if start ≠ -1 ∧ e ≠ 0 then pySlice cleaned start e else cleaned

/-- `RoadmapGenerator.generate_roadmap`.  `now1` stamps any default
roadmap built along the way, `now2` the final metadata stamp; `llm` is
the LLM call's outcome (`none` = the call raised, handled by returning
the default roadmap).  The four subscript assignments after parsing are
Python `dict` item assignments; on a non-dict parse result they raise
`TypeError`, which propagates to `main` — modelled by `.error`. -/
def generate_roadmap (now1 now2 company role jd_text : String)
    (o1 o2 : Except String DDGResponse) (llm : Option String) :
    Except String JValue :=
  let _company_info := search_company_info company role o1 o2
  let _jd := jd_text
  match llm with
  | none => .ok (create_default_roadmap now1 company role)
  | some response_text =>
    match extract_json_from_text now1 response_text with
    | .obj fs =>
      let fs := dictSet fs "company" (.str company)
      let fs := dictSet fs "role" (.str role)
      let fs := dictSet fs "generated_at" (.str now2)
      let fs := dictSet fs "version" (.str "1.0")
      .ok (.obj fs)
    | _ => .error "TypeError: item assignment on a non-dict roadmap"

/-- The output file name derived by `save_roadmap`. -/
def save_filename (company role : String) : String :=
  pyLower (pyReplace (pyReplace
    (company ++ "_" ++ role ++ "_roadmap.json") " " "_") "/" "_")

/-- `get_job_description`: the entered lines are joined with newlines;
an all-whitespace result is rejected (`None`). -/
def get_job_description (jdLines : List String) : Option String :=
  let jd_text := String.intercalate "\n" jdLines
  if pyStripStr jd_text = "" then none else some jd_text

/-- Observable outcome of one run of `main`.  Only `.saved` writes a
file; its `contents` field is the exact text `save_roadmap` writes. -/
inductive MainResult where
  | missing_key : MainResult
  | empty_jd : MainResult
  | errored : String → MainResult
  | saved : JValue → String → String → MainResult
deriving DecidableEq, Repr

/-- `main`: check the API key, gather inputs (the company/role re-prompt
loops are modelled by their final nonempty values), abort when the job
description is empty, then generate, display and save inside the
`try/except`. -/
def main_run (hasKey : Bool) (company role : String) (jdLines : List String)
    (o1 o2 : Except String DDGResponse) (llm : Option String)
    (now1 now2 : String) : MainResult :=
  if hasKey = false then .missing_key
  else
    match get_job_description jdLines with
    | none => .empty_jd
    | some jd_text =>
      match generate_roadmap now1 now2 company role jd_text o1 o2 llm with
      | .error e => .errored e
      | .ok roadmap =>
        .saved roadmap (save_filename company role) (json_dumps roadmap)

/-! ## Auxiliary definitions used by the statements and proofs -/

/-- Field lookup through a `generate_roadmap` result (`none` when the
run raised or the roadmap is not a dict). -/
def roadGet (r : Except String JValue) (k : String) : Option JValue :=
  match r with
  | .ok (.obj fs) => dictGet fs k
  | _ => none

/-- Key sequence of a `generate_roadmap` result. -/
def roadKeys (r : Except String JValue) : Option (List String) :=
  match r with
  | .ok (.obj fs) => some (dictKeys fs)
  | _ => none

/-- `true` iff the computation returned normally. -/
def isOkE (r : Except String JValue) : Bool :=
  match r with
  | .ok _ => true
  | .error _ => false

theorem fieldsInd {motive : JFields → Prop} (hnil : motive .nil)
    (hcons : ∀ k v tl, motive tl → motive (.cons k v tl)) :
    ∀ fs, motive fs
  | .nil => hnil
  | .cons k v tl => hcons k v tl (fieldsInd hnil hcons tl)

theorem dictGet_dictSet_self (fs : JFields) (k : String) (v : JValue) :
    dictGet (dictSet fs k v) k = some v := by
  induction fs using fieldsInd with
  | hnil => simp [dictSet, dictGet]
  | hcons k' v' tl ih =>
    by_cases h : k' = k
    · simp [dictSet, dictGet, h]
    · simp [dictSet, dictGet, h, ih]

theorem dictGet_dictSet_ne (fs : JFields) (k k' : String) (v : JValue)
    (h : k' ≠ k) : dictGet (dictSet fs k' v) k = dictGet fs k := by
  induction fs using fieldsInd with
  | hnil => simp [dictSet, dictGet, h]
  | hcons k0 v0 tl ih =>
    by_cases h0 : k0 = k'
    · subst h0
      simp [dictSet, dictGet, h]
    · simp only [dictSet, if_neg h0]
      by_cases h1 : k0 = k
      · simp [dictGet, h1]
      · simp [dictGet, h1, ih]

theorem dictKeys_dictSet_of_hasKey (fs : JFields) (k : String) (v : JValue)
    (h : hasKey fs k = true) : dictKeys (dictSet fs k v) = dictKeys fs := by
  induction fs using fieldsInd with
  | hnil => simp [hasKey] at h
  | hcons k' v' tl ih =>
    by_cases h0 : k' = k
    · simp [dictSet, dictKeys, h0]
    · simp only [hasKey, Bool.or_eq_true, decide_eq_true_eq] at h
      rcases h with h | h
      · exact absurd h h0
      · simp [dictSet, dictKeys, h0, ih h]

/-! ## Lemmas about `pySplit` (in-bounds indexing for the fence guard) -/

theorem pySplitGo_length_pos :
    ∀ (fuel : Nat) (sep s acc : List Char),
      1 ≤ (pySplitGo sep fuel s acc).length := by
  intro fuel
  induction fuel with
  | zero =>
    intro sep s acc
    cases s <;> simp [pySplitGo]
  | succ m ih =>
    intro sep s acc
    match s with
    | [] => simp [pySplitGo]
    | c :: rest =>
      rw [pySplitGo]
      split
      · simp
      · exact ih sep rest (c :: acc)

theorem pySplitGo_two_le :
    ∀ (fuel : Nat) (s : List Char), s.length < fuel →
      ∀ (sep acc : List Char), sep ≠ [] → pyContains sep s = true →
        2 ≤ (pySplitGo sep fuel s acc).length := by
  intro fuel
  induction fuel with
  | zero =>
    intro s hs
    omega
  | succ m ih =>
    intro s hs sep acc hsep hc
    match s with
    | [] =>
      simp [pyContains, List.isEmpty_iff] at hc
      exact absurd hc hsep
    | c :: rest =>
      rw [pySplitGo]
      split
      · have := pySplitGo_length_pos m sep ((c :: rest).drop sep.length) []
        simp only [List.length_cons]
        omega
      · rename_i hneg
        have hpre : sep.isPrefixOf (c :: rest) = false := by
          rcases Bool.eq_false_or_eq_true (sep.isPrefixOf (c :: rest)) with h | h
          · exact absurd ⟨h, hsep⟩ hneg
          · exact h
        have hc' : pyContains sep rest = true := by
          simp only [pyContains, hpre, Bool.false_or] at hc
          exact hc
        exact ih rest (by simp only [List.length_cons] at hs; omega) sep
          (c :: acc) hsep hc'

theorem pySplit_two_le (sep s : List Char) (hsep : sep ≠ [])
    (hc : pyContains sep s = true) : 2 ≤ (pySplit sep s).length :=
  pySplitGo_two_le (s.length + 1) s (by omega) sep [] hsep hc

theorem pySplit_length_pos (sep s : List Char) : 1 ≤ (pySplit sep s).length :=
  pySplitGo_length_pos (s.length + 1) sep s []

/-! ## Helper lemmas about `extract_json_from_text` -/

/-- `extract_json_from_text` equals the decode of `extractTarget`, with
the `("Unknown", "Unknown")` default as the failure fallback. -/
theorem extract_json_eq_target (now text : String) :
    extract_json_from_text now text =
      (match json_loads_chars (extractTarget text) with
       | some v => v
       | none => create_default_roadmap now "Unknown" "Unknown") := by
  simp only [extract_json_from_text, extractTarget]
  by_cases hc : pyFind '\x7b' (fenceStrip (pyStrip text.data)) ≠ -1 ∧
      pyRfind '\x7d' (fenceStrip (pyStrip text.data)) + 1 ≠ 0
  · simp only [if_pos hc]
  · simp only [if_neg hc]

/-- On decode failure the parser returns the default record. -/
theorem extract_json_default (now text : String)
    (h : json_loads_chars (extractTarget text) = none) :
    extract_json_from_text now text =
      create_default_roadmap now "Unknown" "Unknown" := by
  rw [extract_json_eq_target, h]

/-- On decode success the parser returns the decoded value unchanged. -/
theorem extract_json_parsed (now text : String) (v : JValue)
    (h : json_loads_chars (extractTarget text) = some v) :
    extract_json_from_text now text = v := by
  rw [extract_json_eq_target, h]

/-! ## Claims -/

/-- C5: for every `(company, role)` pair (and timestamp), the default
record contains exactly four interview rounds, a note field, difficulty
`"Medium"`, and populates every schema field: `company`, `role`,
`rounds`, `difficulty`, `recommended_order`, `evidence` (with
`key_skills` and `topic_count`), `generated_at`, `version`. -/
theorem create_default_roadmap_shape (now company role : String) :
    dictGet (create_default_fields now company role) "rounds" =
      some (.arr (.cons
        (.obj (.cons "type" (.str "Technical Screening")
          (.cons "topics" (.arr (.cons (.str "Data Structures")
            (.cons (.str "Algorithms") (.cons (.str "Problem Solving") .nil)))) .nil)))
        (.cons (.obj (.cons "type" (.str "Coding Round")
          (.cons "topics" (.arr (.cons (.str "System Design")
            (.cons (.str "Object-Oriented Programming") .nil))) .nil)))
        (.cons (.obj (.cons "type" (.str "System Design")
          (.cons "topics" (.arr (.cons (.str "Microservices")
            (.cons (.str "Scalability") (.cons (.str "Database Design") .nil)))) .nil)))
        (.cons (.obj (.cons "type" (.str "Behavioral")
          (.cons "topics" (.arr (.cons (.str "Teamwork")
            (.cons (.str "Communication") (.cons (.str "Experience") .nil)))) .nil)))
        .nil))))) ∧
    (JItems.cons
        (.obj (.cons "type" (.str "Technical Screening")
          (.cons "topics" (.arr (.cons (.str "Data Structures")
            (.cons (.str "Algorithms") (.cons (.str "Problem Solving") .nil)))) .nil)))
        (.cons (.obj (.cons "type" (.str "Coding Round")
          (.cons "topics" (.arr (.cons (.str "System Design")
            (.cons (.str "Object-Oriented Programming") .nil))) .nil)))
        (.cons (.obj (.cons "type" (.str "System Design")
          (.cons "topics" (.arr (.cons (.str "Microservices")
            (.cons (.str "Scalability") (.cons (.str "Database Design") .nil)))) .nil)))
        (.cons (.obj (.cons "type" (.str "Behavioral")
          (.cons "topics" (.arr (.cons (.str "Teamwork")
            (.cons (.str "Communication") (.cons (.str "Experience") .nil)))) .nil)))
        .nil)))).length = 4 ∧
    dictGet (create_default_fields now company role) "difficulty" =
      some (.str "Medium") ∧
    dictGet (create_default_fields now company role) "note" =
      some (.str "Default roadmap - AI generation failed") ∧
    dictKeys (create_default_fields now company role) =
      ["company", "role", "rounds", "difficulty", "recommended_order",
       "evidence", "generated_at", "version", "note"] ∧
    dictGet (create_default_fields now company role) "company" =
      some (.str company) ∧
    dictGet (create_default_fields now company role) "role" =
      some (.str role) ∧
    dictGet (create_default_fields now company role) "generated_at" =
      some (.str now) ∧
    dictGet (create_default_fields now company role) "version" =
      some (.str "1.0") ∧
    dictGet (create_default_fields now company role) "recommended_order" =
      some (.arr (.cons (.str "Data Structures") (.cons (.str "Algorithms")
        (.cons (.str "System Design") (.cons (.str "Behavioral") .nil))))) ∧
    dictGet (create_default_fields now company role) "evidence" =
      some (.obj (.cons "key_skills" (.arr (.cons (.str "General Programming")
        (.cons (.str "Problem Solving") .nil)))
        (.cons "topic_count" (.num 4) .nil))) ∧
    dictGet (.cons "key_skills" (.arr (.cons (.str "General Programming")
        (.cons (.str "Problem Solving") .nil)))
        (.cons "topic_count" (.num 4) .nil)) "topic_count" = some (.num 4) :=
  ⟨rfl, rfl, rfl, rfl, rfl, rfl, rfl, rfl, rfl, rfl, rfl, rfl⟩

/-- C7: `search_duckduckgo` converts every failing outcome of the
network request (network error, timeout, malformed response — any raise
inside the `try` body) into the fixed placeholder string; no error
propagates to the caller (the function is total by construction). -/
theorem search_duckduckgo_absorbs_failure (query err : String) :
    search_duckduckgo query (.error err) =
      "Search unavailable. Using standard interview process for the role." :=
  rfl

/-- C8: when the joined job-description input is all whitespace,
`get_job_description` returns the empty marker (`none`) and the run
aborts: `main_run` returns `.empty_jd`, so neither `generate_roadmap`
nor `save_roadmap` is reached and no file contents are produced (only
the `.saved` outcome carries file contents). -/
theorem empty_jd_aborts (company role now1 now2 : String)
    (jdLines : List String) (o1 o2 : Except String DDGResponse)
    (llm : Option String)
    (h : pyStripStr (String.intercalate "\n" jdLines) = "") :
    get_job_description jdLines = none ∧
    main_run true company role jdLines o1 o2 llm now1 now2 =
      MainResult.empty_jd := by
  have hjd : get_job_description jdLines = none := by
    simp [get_job_description, h]
  exact ⟨hjd, by simp [main_run, hjd]⟩

/-- Witness for C8 at the concrete all-whitespace input. -/
theorem empty_jd_aborts_witness :
    pyStripStr (String.intercalate "\n" ["  ", "", "\t"]) = "" ∧
    get_job_description ["  ", "", "\t"] = none ∧
    main_run true "Acme" "Dev" ["  ", "", "\t"] (.error "x") (.error "x")
      (some "\x7b\x7d") "T1" "T2" = MainResult.empty_jd :=
  ⟨by decide,
   (empty_jd_aborts "Acme" "Dev" "T1" "T2" ["  ", "", "\t"] (.error "x")
     (.error "x") (some "\x7b\x7d") (by decide)).1,
   (empty_jd_aborts "Acme" "Dev" "T1" "T2" ["  ", "", "\t"] (.error "x")
     (.error "x") (some "\x7b\x7d") (by decide)).2⟩

/-- C10: the `[1]` indexing after splitting on a fence delimiter is
in bounds whenever the containment guard holds: `"```json" in cleaned`
(resp. `"```" in cleaned`) forces the split to have at least two parts,
and every split has at least one part, so the `[0]` access after the
second split is also in bounds — `fenceStrip` can never raise an
out-of-range error. -/
theorem fence_split_index_in_bounds (s : List Char) :
    (pyContains jsonFence s = true → 2 ≤ (pySplit jsonFence s).length) ∧
    (pyContains ticks s = true → 2 ≤ (pySplit ticks s).length) ∧
    1 ≤ (pySplit jsonFence s).length ∧ 1 ≤ (pySplit ticks s).length :=
  ⟨fun h => pySplit_two_le jsonFence s (by decide) h,
   fun h => pySplit_two_le ticks s (by decide) h,
   pySplit_length_pos jsonFence s, pySplit_length_pos ticks s⟩

/-- Witness for C10 at concrete fenced inputs. -/
theorem fence_split_index_in_bounds_witness :
    2 ≤ (pySplit jsonFence "x```json y".data).length ∧
    2 ≤ (pySplit ticks "a``` b".data).length :=
  ⟨(fence_split_index_in_bounds "x```json y".data).1 (by decide),
   (fence_split_index_in_bounds "a``` b".data).2.1 (by decide)⟩

/-- Truncation bound for Python's `s[:n]`. -/
theorem pyTakeStr_length_le (n : Nat) (s : String) :
    (pyTakeStr n s).length ≤ n := by
  simp only [pyTakeStr, String.length]
  exact List.length_take_le n s.data

/-- C1 counterexample: on the input `"[1, 2]"` the decoded value is a
JSON array (wrong top-level shape), yet `extract_json_from_text`
returns that array unchanged — not the deterministic default record and
not a record at all: only `json.JSONDecodeError` is caught, and a
successfully decoded non-object is passed through. -/
theorem extract_json_nonobject_passthrough_cex :
    extract_json_from_text "T" "[1, 2]" =
      JValue.arr (.cons (.num 1) (.cons (.num 2) .nil)) ∧
    extract_json_from_text "T" "[1, 2]" ≠
      create_default_roadmap "T" "Unknown" "Unknown" := by
  decide

/-- C1 (amended): `extract_json_from_text` never fails (it is total),
and whenever decoding raises — i.e. on malformed syntax of the chosen
working text — it returns the deterministic default record.  A decoded
value of the wrong top-level shape (such as a JSON array, possible on
the whole-text path) is however returned as-is, not replaced by the
default. -/
theorem extract_json_decode_failure_default (now text : String)
    (h : json_loads_chars (extractTarget text) = none) :
    extract_json_from_text now text =
      create_default_roadmap now "Unknown" "Unknown" :=
  extract_json_default now text h

/-- Witness for the amended C1 at a concrete undecodable input. -/
theorem extract_json_decode_failure_default_witness :
    json_loads_chars (extractTarget "no json present here") = none ∧
    extract_json_from_text "T0" "no json present here" =
      create_default_roadmap "T0" "Unknown" "Unknown" :=
  ⟨by decide,
   extract_json_decode_failure_default "T0" "no json present here" (by decide)⟩

/-- C6 counterexample: when both issued search calls throw, the
company-info text is *not* the single "search unavailable" placeholder
sentence: the placeholder passes the no-results filter (which only
screens the "didn't return specific results" marker), so the text is
two copies of the placeholder joined by a space. -/
theorem search_company_info_double_placeholder_cex :
    search_company_info "Acme" "Dev" (.error "boom") (.error "boom") =
      "Search unavailable. Using standard interview process for the role. Search unavailable. Using standard interview process for the role." ∧
    search_company_info "Acme" "Dev" (.error "boom") (.error "boom") ≠
      "Search unavailable. Using standard interview process for the role." := by
  decide

/-- C6 (amended): the company-info search issues only the first two of
the four query variants; it concatenates (space-joined, truncated to
2000 characters) the snippets that pass the no-results filter — a
filter that screens only the "didn't return specific results" marker,
*not* the failure placeholder — and falls back to the static paragraph
when nothing passes.  In particular when every search call throws, the
result is two copies of the "Search unavailable" placeholder joined by
a space, not the single placeholder sentence. -/
theorem search_company_info_behavior (company role e1 e2 : String)
    (o1 o2 : Except String DDGResponse) :
    (queriesFor company role).take 2 =
      [company ++ " " ++ role ++ " interview process",
       company ++ " technical interview questions " ++ role] ∧
    search_company_info company role (.error e1) (.error e2) =
      "Search unavailable. Using standard interview process for the role. Search unavailable. Using standard interview process for the role." ∧
    (search_company_info company role o1 o2 =
        standard_process_fallback company role ∨
      (search_company_info company role o1 o2).length ≤ 2000) := by
  refine ⟨rfl, rfl, ?_⟩
  simp only [search_company_info]
  split
  · right
    exact pyTakeStr_length_le 2000 _
  · left
    rfl

/-- C3: for every input whose decode fails (malformed / non-JSON model
output), the parser falls through to the default record constructor,
and after `generate_roadmap`'s overrides the resulting record has
exactly the field set of the deterministic default, with `company` and
`role` equal to the caller-supplied values. -/
theorem parser_fallback_field_set (now1 now2 company role jd text : String)
    (o1 o2 : Except String DDGResponse)
    (h : json_loads_chars (extractTarget text) = none) :
    roadKeys (generate_roadmap now1 now2 company role jd o1 o2 (some text)) =
      some (dictKeys (create_default_fields now1 "Unknown" "Unknown")) ∧
    roadGet (generate_roadmap now1 now2 company role jd o1 o2 (some text))
      "company" = some (.str company) ∧
    roadGet (generate_roadmap now1 now2 company role jd o1 o2 (some text))
      "role" = some (.str role) := by
  have he := extract_json_default now1 text h
  simp only [generate_roadmap, he, create_default_roadmap]
  exact ⟨rfl, rfl, rfl⟩

/-- Witness for C3 at the claim's concrete input
`"Sorry, I cannot help."` (no braces, not JSON). -/
theorem parser_fallback_field_set_witness :
    json_loads_chars (extractTarget "Sorry, I cannot help.") = none ∧
    roadKeys (generate_roadmap "T1" "T2" "Acme" "Dev" "jd" (.error "e")
        (.error "e") (some "Sorry, I cannot help.")) =
      some (dictKeys (create_default_fields "T1" "Unknown" "Unknown")) ∧
    roadGet (generate_roadmap "T1" "T2" "Acme" "Dev" "jd" (.error "e")
        (.error "e") (some "Sorry, I cannot help.")) "company" =
      some (.str "Acme") ∧
    roadGet (generate_roadmap "T1" "T2" "Acme" "Dev" "jd" (.error "e")
        (.error "e") (some "Sorry, I cannot help.")) "role" =
      some (.str "Dev") :=
  ⟨by decide,
   (parser_fallback_field_set "T1" "T2" "Acme" "Dev" "jd"
     "Sorry, I cannot help." (.error "e") (.error "e") (by decide)).1,
   (parser_fallback_field_set "T1" "T2" "Acme" "Dev" "jd"
     "Sorry, I cannot help." (.error "e") (.error "e") (by decide)).2.1,
   (parser_fallback_field_set "T1" "T2" "Acme" "Dev" "jd"
     "Sorry, I cannot help." (.error "e") (.error "e") (by decide)).2.2⟩

/-- C4: whenever `generate_roadmap` returns a record (it raises instead
when the decoded roadmap is not a dict), that record's `company` and
`role` equal the caller-supplied arguments and `generated_at` /
`version` are the system-stamped values (`version = "1.0"`, timestamp
from one of the two system clock reads), for *every* model output —
even one that set those fields itself — on both the successful-parse
path and the LLM-failure/default path. -/
theorem generate_roadmap_system_fields
    (now1 now2 company role jd : String) (o1 o2 : Except String DDGResponse)
    (llm : Option String) :
    isOkE (generate_roadmap now1 now2 company role jd o1 o2 llm) = false ∨
    (roadGet (generate_roadmap now1 now2 company role jd o1 o2 llm)
        "company" = some (.str company) ∧
      roadGet (generate_roadmap now1 now2 company role jd o1 o2 llm)
        "role" = some (.str role) ∧
      (roadGet (generate_roadmap now1 now2 company role jd o1 o2 llm)
          "generated_at" = some (.str now1) ∨
        roadGet (generate_roadmap now1 now2 company role jd o1 o2 llm)
          "generated_at" = some (.str now2)) ∧
      roadGet (generate_roadmap now1 now2 company role jd o1 o2 llm)
        "version" = some (.str "1.0")) := by
  cases llm with
  | none => exact Or.inr ⟨rfl, rfl, Or.inl rfl, rfl⟩
  | some text =>
    simp only [generate_roadmap]
    split
    · right
      refine ⟨?_, ?_, Or.inr ?_, ?_⟩
      · simp only [roadGet]
        rw [dictGet_dictSet_ne _ _ _ _ (by decide),
          dictGet_dictSet_ne _ _ _ _ (by decide),
          dictGet_dictSet_ne _ _ _ _ (by decide), dictGet_dictSet_self]
      · simp only [roadGet]
        rw [dictGet_dictSet_ne _ _ _ _ (by decide),
          dictGet_dictSet_ne _ _ _ _ (by decide), dictGet_dictSet_self]
      · simp only [roadGet]
        rw [dictGet_dictSet_ne _ _ _ _ (by decide), dictGet_dictSet_self]
      · simp only [roadGet]
        rw [dictGet_dictSet_self]
    · left
      rfl

/-! ## Lemmas for the embedded-object recovery claim -/

theorem isPrefixOf_append_right {sep l b : List Char}
    (h : sep.isPrefixOf l = true) : sep.isPrefixOf (l ++ b) = true := by
  rw [List.isPrefixOf_iff_prefix] at h ⊢
  exact h.trans (List.prefix_append l b)

theorem pyContains_append_right {sep m : List Char} (b : List Char)
    (h : pyContains sep m = true) : pyContains sep (m ++ b) = true := by
  induction m with
  | nil =>
    simp only [pyContains, List.isEmpty_iff] at h
    subst h
    cases b with
    | nil => simp [pyContains]
    | cons c t => simp [pyContains, List.isPrefixOf]
  | cons c rest ih =>
    simp only [pyContains, Bool.or_eq_true] at h ⊢
    rcases h with h | h
    · left
      simpa using @isPrefixOf_append_right sep _ b h
    · right
      exact ih h

theorem pyContains_append_left {sep t : List Char} (a : List Char)
    (h : pyContains sep t = true) : pyContains sep (a ++ t) = true := by
  induction a with
  | nil => simpa using h
  | cons x a' ih =>
    simp only [List.cons_append, pyContains, Bool.or_eq_true]
    right
    exact ih

theorem pyContains_infix {sep m : List Char} (a b : List Char)
    (h : pyContains sep m = true) : pyContains sep (a ++ (m ++ b)) = true :=
  pyContains_append_left a (pyContains_append_right b h)

theorem pyContains_of_prefix_sep {sub sep : List Char} (hsub : sub <+: sep) :
    ∀ s : List Char, pyContains sep s = true → pyContains sub s = true := by
  intro s
  induction s with
  | nil =>
    simp only [pyContains, List.isEmpty_iff]
    intro h
    subst h
    simpa using List.prefix_nil.mp hsub
  | cons c rest ih =>
    simp only [pyContains, Bool.or_eq_true]
    rintro (h | h)
    · left
      rw [List.isPrefixOf_iff_prefix] at h ⊢
      exact hsub.trans h
    · right
      exact ih h

theorem dropWhile_append_keep {p : Char → Bool} (a : List Char)
    {m : List Char} (hm : ∀ c, m.head? = some c → p c = false) :
    List.dropWhile p (a ++ m) = List.dropWhile p a ++ m := by
  induction a with
  | nil =>
    cases m with
    | nil => simp
    | cons c t =>
      have := hm c rfl
      simp [List.dropWhile_cons, this]
  | cons x a' ih =>
    by_cases hx : p x = true
    · simp [List.dropWhile_cons, hx, ih]
    · simp only [Bool.not_eq_true] at hx
      simp [List.dropWhile_cons, hx]

theorem pyStrip_middle (a b : List Char) {m : List Char} (hne : m ≠ [])
    (hhead : ∀ c, m.head? = some c → isPyWs c = false)
    (hlast : ∀ c, m.getLast? = some c → isPyWs c = false) :
    pyStrip (a ++ (m ++ b)) =
      a.dropWhile isPyWs ++ (m ++ (b.reverse.dropWhile isPyWs).reverse) := by
  obtain ⟨c0, m', rfl⟩ : ∃ c0 m', m = c0 :: m' := by
    cases m with
    | nil => exact absurd rfl hne
    | cons c0 m' => exact ⟨c0, m', rfl⟩
  unfold pyStrip
  have h1 : List.dropWhile isPyWs (a ++ (c0 :: m' ++ b)) =
      List.dropWhile isPyWs a ++ (c0 :: m' ++ b) := by
    apply dropWhile_append_keep
    intro c hc
    simp only [List.cons_append, List.head?_cons, Option.some.injEq] at hc
    subst hc
    exact hhead _ rfl
  rw [h1]
  have hrev : (List.dropWhile isPyWs a ++ (c0 :: m' ++ b)).reverse =
      b.reverse ++ ((c0 :: m').reverse ++ (List.dropWhile isPyWs a).reverse) := by
    simp [List.reverse_append]
  rw [hrev]
  have hlast' : ∀ c, ((c0 :: m').reverse ++
      (List.dropWhile isPyWs a).reverse).head? = some c → isPyWs c = false := by
    intro c hc
    have hne2 : (c0 :: m').reverse ≠ [] := by simp
    obtain ⟨d, t, hd⟩ : ∃ d t, (c0 :: m').reverse = d :: t := by
      cases hrev2 : (c0 :: m').reverse with
      | nil => exact absurd hrev2 hne2
      | cons d t => exact ⟨d, t, rfl⟩
    rw [hd] at hc
    simp only [List.cons_append, List.head?_cons, Option.some.injEq] at hc
    subst hc
    apply hlast _
    rw [← List.head?_reverse, hd]
    rfl
  rw [dropWhile_append_keep b.reverse hlast']
  simp [List.reverse_append]

theorem pyFindAux_append_not_mem {c : Char} {a : List Char} (t : List Char)
    (h : c ∉ a) :
    pyFindAux c (a ++ t) = (pyFindAux c t).map (· + a.length) := by
  induction a with
  | nil => simp
  | cons x a' ih =>
    have hx : x ≠ c := by
      intro hx
      exact h (by simp [hx])
    have ha' : c ∉ a' := fun hm => h (List.mem_cons_of_mem _ hm)
    simp only [List.cons_append]
    rw [pyFindAux, if_neg hx, ih ha']
    cases pyFindAux c t with
    | none => rfl
    | some i =>
      simp only [Option.map_some', Option.some.injEq, List.length_cons]
      omega

theorem pyFindAux_cons_self (c : Char) (t : List Char) :
    pyFindAux c (c :: t) = some 0 := by
  simp [pyFindAux]

theorem pyFind_mid (a' b' : List Char) {m : List Char} {c0 : Char}
    (hm : m = c0 :: m.tail) (ha : c0 ∉ a') :
    pyFind c0 (a' ++ (m ++ b')) = (a'.length : Int) := by
  rw [pyFind, pyFindAux_append_not_mem (m ++ b') ha]
  rw [hm]
  simp only [List.cons_append, pyFindAux_cons_self]
  simp

theorem pyRfind_mid (a' b' : List Char) {m : List Char} {d : Char}
    (hlast : m.getLast? = some d) (hb : d ∉ b') :
    pyRfind d (a' ++ (m ++ b')) = ((a'.length + m.length - 1 : Nat) : Int) := by
  rw [pyRfind]
  have hrev : (a' ++ (m ++ b')).reverse =
      b'.reverse ++ (m.reverse ++ a'.reverse) := by
    simp [List.reverse_append]
  have hbrev : d ∉ b'.reverse := by simpa [List.mem_reverse] using hb
  rw [hrev, pyFindAux_append_not_mem _ hbrev]
  obtain ⟨t, hmr⟩ : ∃ t, m.reverse = d :: t := by
    have : m.reverse.head? = some d := by rw [List.head?_reverse]; exact hlast
    cases hmm : m.reverse with
    | nil => rw [hmm] at this; simp at this
    | cons x t =>
      rw [hmm] at this
      simp only [List.head?_cons, Option.some.injEq] at this
      exact ⟨t, by rw [this]⟩
  rw [hmr]
  simp only [List.cons_append, pyFindAux_cons_self, Option.map_some']
  have hlen : (a' ++ (m ++ b')).length = a'.length + m.length + b'.length := by
    simp
    omega
  have hmlen : 1 ≤ m.length := by
    cases m with
    | nil => simp at hlast
    | cons x t2 => simp
  rw [hlen]
  congr 1
  simp [List.length_reverse]
  omega

theorem extract_embedded (now p1 objStr p2 : String) (v : JFields)
    (hticks : pyContains ticks (p1 ++ objStr ++ p2).data = false)
    (hp1 : '\x7b' ∉ p1.data)
    (hp2 : '\x7d' ∉ p2.data)
    (hhead : objStr.data.head? = some '\x7b')
    (hlast : objStr.data.getLast? = some '\x7d')
    (hloads : json_loads_chars objStr.data = some (.obj v)) :
    extract_json_from_text now (p1 ++ objStr ++ p2) = .obj v := by
  set m := objStr.data with hmdef
  have hne : m ≠ [] := by
    intro h
    rw [h] at hhead
    simp at hhead
  obtain ⟨x, t, hxt⟩ := List.exists_cons_of_ne_nil hne
  have hmlen : 1 ≤ m.length := by
    rw [hxt]
    simp
  have hdata : (p1 ++ objStr ++ p2).data = p1.data ++ (m ++ p2.data) := by
    rw [String.data_append, String.data_append, List.append_assoc]
  set a' := p1.data.dropWhile isPyWs with ha'def
  set b2 := (p2.data.reverse.dropWhile isPyWs).reverse with hb2def
  have hstrip : pyStrip ((p1 ++ objStr ++ p2).data) = a' ++ (m ++ b2) := by
    rw [hdata]
    rw [pyStrip_middle p1.data p2.data hne ?hh ?hl]
    case hh =>
      intro c hc
      rw [hhead] at hc
      simp only [Option.some.injEq] at hc
      subst hc
      decide
    case hl =>
      intro c hc
      rw [hlast] at hc
      simp only [Option.some.injEq] at hc
      subst hc
      decide
  have hdecomp : (p1 ++ objStr ++ p2).data =
      (p1.data.takeWhile isPyWs) ++ ((a' ++ (m ++ b2)) ++
        (p2.data.reverse.takeWhile isPyWs).reverse) := by
    rw [hdata]
    have e1 : p1.data = p1.data.takeWhile isPyWs ++ a' :=
      (List.takeWhile_append_dropWhile isPyWs p1.data).symm
    have e2 : p2.data = b2 ++ (p2.data.reverse.takeWhile isPyWs).reverse := by
      conv_lhs => rw [← List.reverse_reverse p2.data]
      conv_lhs => rw [← List.takeWhile_append_dropWhile isPyWs p2.data.reverse]
      rw [List.reverse_append]
    conv_lhs => rw [e1, e2]
    simp [List.append_assoc]
  have hcle_ticks : pyContains ticks (a' ++ (m ++ b2)) = false := by
    rcases Bool.eq_false_or_eq_true (pyContains ticks (a' ++ (m ++ b2))) with h | h
    · exfalso
      have h2 := pyContains_infix (p1.data.takeWhile isPyWs)
        ((p2.data.reverse.takeWhile isPyWs).reverse) h
      rw [← hdecomp] at h2
      rw [h2] at hticks
      exact absurd hticks (by simp)
    · exact h
  have hcle_json : pyContains jsonFence (a' ++ (m ++ b2)) = false := by
    rcases Bool.eq_false_or_eq_true (pyContains jsonFence (a' ++ (m ++ b2))) with h | h
    · exfalso
      have h2 := @pyContains_of_prefix_sep ticks jsonFence
        (by decide) _ h
      rw [h2] at hcle_ticks
      exact absurd hcle_ticks (by simp)
    · exact h
  have hfence : fenceStrip (a' ++ (m ++ b2)) = a' ++ (m ++ b2) := by
    simp [fenceStrip, hcle_ticks, hcle_json]
  have hx : x = '\x7b' := by
    rw [hxt] at hhead
    simpa using hhead
  have hm_cons : m = '\x7b' :: m.tail := by
    rw [hxt, hx]
    rfl
  have ha'mem : '\x7b' ∉ a' := fun hmem =>
    hp1 (List.Sublist.mem hmem (List.dropWhile_sublist _))
  have hb2mem : '\x7d' ∉ b2 := by
    intro hmem
    rw [hb2def, List.mem_reverse] at hmem
    exact hp2 (List.mem_reverse.mp
      (List.Sublist.mem hmem (List.dropWhile_sublist _)))
  have hfind := pyFind_mid a' b2 hm_cons ha'mem
  have hrfind := pyRfind_mid a' b2 hlast hb2mem
  have hslice : pySlice (a' ++ (m ++ b2)) ((a'.length : Nat) : Int)
      (((a'.length + m.length - 1 : Nat) : Int) + 1) = m := by
    unfold pySlice
    have h2 : ((((a'.length + m.length - 1 : Nat) : Int)) + 1).toNat =
        a'.length + m.length := by omega
    rw [Int.toNat_ofNat, h2]
    have h3 : a'.length + m.length - a'.length = m.length := by omega
    rw [h3, List.drop_left, List.take_left]
  simp only [extract_json_from_text]
  rw [hstrip, hfence, hfind, hrfind]
  rw [if_pos ⟨by omega, by omega⟩]
  rw [hslice, hloads]

/-- C2 counterexample: the well-formed JSON object
`{"company":"X"}` embedded in the prose `"... tail}"` is *not*
recovered: the stray closing brace after the object makes the
first-`{`-to-last-`}` slice undecodable, so the parser falls back to
the default record instead of returning the object. -/
theorem extract_json_stray_brace_cex :
    json_loads "\x7b\x22company\x22:\x22X\x22\x7d" =
      some (.obj (.cons "company" (.str "X") .nil)) ∧
    extract_json_from_text "T" "\x7b\x22company\x22:\x22X\x22\x7d tail\x7d" =
      create_default_roadmap "T" "Unknown" "Unknown" ∧
    extract_json_from_text "T" "\x7b\x22company\x22:\x22X\x22\x7d tail\x7d" ≠
      .obj (.cons "company" (.str "X") .nil) := by
  decide

/-- C2 (amended): the fence/brace recovery algorithm works as
described — strip, take the first ```json fence pair's contents if
present, else the first generic fence pair's, else the whole trimmed
text, then decode the slice from the first `{` to the last `}` — and it
recovers an embedded well-formed JSON object provided the surrounding
prose does not interfere: no fence marker in the text, no `{` in the
prose before the object and no `}` in the prose after it.  (Without
that proviso recovery can fail; see the counterexample.)  In
particular the claim's concrete scenario holds: the fenced text
`"Here is the result:\n```json\n{"company":"X"}\n```\nThanks!"`
yields exactly `{"company": "X"}`. -/
theorem extract_json_embedded_object_recovery :
    (∀ now : String,
      extract_json_from_text now
        "Here is the result:\n```json\n\x7b\x22company\x22:\x22X\x22\x7d\n```\nThanks!" =
        .obj (.cons "company" (.str "X") .nil)) ∧
    (∀ (now p1 objStr p2 : String) (v : JFields),
      pyContains ticks (p1 ++ objStr ++ p2).data = false →
      '\x7b' ∉ p1.data →
      '\x7d' ∉ p2.data →
      objStr.data.head? = some '\x7b' →
      objStr.data.getLast? = some '\x7d' →
      json_loads_chars objStr.data = some (.obj v) →
      extract_json_from_text now (p1 ++ objStr ++ p2) = .obj v) :=
  ⟨fun now => extract_json_parsed now _ _ (by decide), extract_embedded⟩

/-- Witness for C2 at a concrete prose-embedded object. -/
theorem extract_json_embedded_object_recovery_witness :
    extract_json_from_text "TW"
      ("Note: " ++ "\x7b\x22company\x22:\x22X\x22\x7d" ++ " thanks") =
      .obj (.cons "company" (.str "X") .nil) :=
  extract_json_embedded_object_recovery.2 "TW" "Note: "
    "\x7b\x22company\x22:\x22X\x22\x7d" " thanks"
    (.cons "company" (.str "X") .nil)
    (by decide) (by decide) (by decide) (by decide) (by decide) (by decide)

/-! ## Character and digit facts for the serializer round trip -/

